import Mathlib

/-!
Shallow embedding of the `lil` URL shortener (github.com/kriive/lil) and
proofs about it.

The embedding follows the Go sources: the `lil` domain package (`Short`,
`Short.Validate`, error codes), the sqlite-backed `ShortService`
(`createShort`, `findShorts`, `deleteShort`), the `generate` package
(`SecureStringFromAlphabet`), and the HTTP layer (`Session`, the
`session`/`setSession` cookie helpers, the `authenticate` middleware and
the GitHub/Google OAuth callback handlers).  The sqlite store is modelled
as a list of rows in insertion order; SQL uniqueness constraints become
explicit membership checks mirroring the constraint declarations of
`sqlite/migration/000000000.sql`.
-/

namespace Lil

/-- Application error codes, from the `lil` error package
(`ECONFLICT`, `EINVALID`, ...). -/
inductive ErrorCode where
  | ECONFLICT
  | EINVALID
  | ENOTFOUND
  | ENOTIMPLEMENTED
  | EUNAUTHORIZED
  | EINTERNAL
deriving DecidableEq, Repr

/-- An application error: code plus human-readable message,
mirroring `lil.Error`. -/
structure AppError where
  code : ErrorCode
  message : String
deriving DecidableEq, Repr

/-- Shallow model of Go `net/url.URL` restricted to what the program
inspects: the scheme and the rest of the URL after the scheme.
`render` plays the role of `URL.String()`. -/
structure URL where
  scheme : String
  rest : String
deriving DecidableEq, Repr

/-- Model of `url.URL.String()`: empty iff the URL is the zero value. -/
def URL.render (u : URL) : String :=
  if u.scheme = "" then u.rest else u.scheme ++ "://" ++ u.rest

/-- `lil.Short`: a shortened URL row.  The `Owner` association is derived
from `ownerID` and not duplicated here. -/
structure Short where
  url : URL
  key : String
  ownerID : Int
  createdAt : Nat
  updatedAt : Nat
deriving DecidableEq, Repr

def ErrEmptyURL : AppError := ⟨.EINVALID, "Missing URL."⟩
def ErrEmptyKey : AppError := ⟨.EINVALID, "Missing Key."⟩
def ErrEmptyOwner : AppError := ⟨.EINVALID, "Missing owner."⟩
def ErrInvalidURLScheme : AppError :=
  ⟨.EINVALID, "Invalid URL scheme. Only http and https are supported."⟩

/-- `(*Short).Validate` from `lil/short.go`: empty URL, then scheme,
then empty key, then empty owner. -/
def Short.Validate (s : Short) : Option AppError :=
  if s.url.render = "" then some ErrEmptyURL
  else if s.url.scheme ≠ "https" ∧ s.url.scheme ≠ "http" then some ErrInvalidURLScheme
  else if s.key = "" then some ErrEmptyKey
  else if s.ownerID = 0 then some ErrEmptyOwner
  else none

/-- `lil.ShortFilter`: optional key/URL predicates plus paging. -/
structure ShortFilter where
  key : Option String
  url : Option URL
  offset : Int
  limit : Int
deriving Repr

/-- The WHERE clause built in `findShorts`: each present filter field is
AND-ed (`key = ?`, `url = ?`; the URL column stores the rendered URL). -/
def matchesFilter (f : ShortFilter) (s : Short) : Bool :=
  (match f.key with
   | none => true
   | some k => s.key == k) &&
  (match f.url with
   | none => true
   | some u => s.url.render == u.render)

/-- Modelled from the spec: the SQL paging helper `FormatLimitOffset`
(in `sqlite/sqlite.go`, not among the sources) emits standard
`LIMIT`/`OFFSET` clauses for positive arguments; §6 of the spec gives the
usual semantics (skip `offset` rows, then return at most `limit` rows,
a non-positive value disabling the clause). -/
def applyLimitOffset (limit offset : Int) (rows : List Short) : List Short :=
  let afterOffset := if 0 < offset then rows.drop offset.toNat else rows
  if 0 < limit then afterOffset.take limit.toNat else afterOffset

/-- `findShorts` from `sqlite/short.go`: filters the `shorts` table,
computes `COUNT(*) OVER()` (the window count over all filtered rows,
before paging), then pages with `FormatLimitOffset`.  The Go code reads
the count `n` from each scanned row into a variable initialised to zero,
so an empty page leaves `n = 0`. -/
def findShorts (store : List Short) (f : ShortFilter) : List Short × Nat :=
  let matched := store.filter (fun s => matchesFilter f s)
  let page := applyLimitOffset f.limit f.offset matched
  (page, if page.isEmpty then 0 else matched.length)

/-- `findShortByKey`: a key-filtered `findShorts`; `ENOTFOUND` when the
result list is empty. -/
def findShortByKey (store : List Short) (key : String) : Except AppError Short :=
  match (findShorts store ⟨some key, none, 0, 0⟩).1 with
  | [] => .error ⟨.ENOTFOUND, "Short not found."⟩
  | s :: _ => .ok s

/-- `createShort` from `sqlite/short.go`: reject a zero context user id
with `EUNAUTHORIZED`, stamp owner and timestamps, validate, then INSERT.
The `shorts.key` PRIMARY KEY constraint makes a duplicate key fail; the
sqlite error formatter maps that uniqueness violation to `ECONFLICT`
with the message pinned by the `ErrDuplicateShort` test. -/
def createShort (ctxUserID : Int) (now : Nat) (store : List Short) (short : Short) :
    Except AppError (List Short × Short) :=
  if ctxUserID = 0 then
    .error ⟨.EUNAUTHORIZED, "You must be logged in to create a short."⟩
  else
    let short := { short with ownerID := ctxUserID, createdAt := now, updatedAt := now }
    match short.Validate with
    | some e => .error e
    | none =>
      if store.any (fun s => s.key == short.key) then
        .error ⟨.ECONFLICT, "Short with the same key already exists."⟩
      else
        .ok (store ++ [short], short)

/-- `(*ShortService).CreateShort`: run `createShort` in a transaction —
commit on success, roll back (store unchanged) on error. -/
def CreateShort (ctxUserID : Int) (now : Nat) (store : List Short) (short : Short) :
    List Short × Option AppError :=
  match createShort ctxUserID now store short with
  | .error e => (store, some e)
  | .ok (st, _) => (st, none)

/-- `deleteShort` from `sqlite/short.go`: look the key up (`ENOTFOUND`
when absent), then `DELETE FROM shorts WHERE key = ?`.  No field of the
context besides the transaction is consulted: there is no owner check. -/
def deleteShort (store : List Short) (key : String) : Except AppError (List Short) :=
  match findShortByKey store key with
  | .error e => .error e
  | .ok _ => .ok (store.filter (fun s => !(s.key == key)))

/-- `handleShortURLDelete` from `http/short.go`: reads the `{key}` URL
parameter and calls `DeleteShort`; the acting user id from the request
context is never consulted. -/
def handleShortURLDelete (ctxUserID : Int) (store : List Short) (key : String) :
    List Short × Option AppError :=
  if key = "" then
    (store, some ⟨.EINTERNAL,
      "empty URLParameter: shouldn't happen, did you forget to configure the route?"⟩)
  else
    match deleteShort store key with
    | .error e => (store, some e)
    | .ok st => (st, none)

/-- The outcome of one run of `handleShortURLCreate`: resulting store,
error (if any), and how many keys were requested from the generator. -/
structure CreateOutcome where
  store : List Short
  err : Option AppError
  keysConsumed : Nat
deriving DecidableEq, Repr

/-- `handleShortURLCreate` from `http/short.go`: generate one key via
`SecureStringFromAlphabet` (overwriting any user-provided key), then call
`CreateShort` once.  The straight-line handler consumes exactly one key
and performs exactly one insertion attempt; any error — including the
`ECONFLICT` of a key collision — is returned to the caller directly. -/
def handleShortURLCreate (ctxUserID : Int) (now : Nat) (store : List Short)
    (reqURL : URL) (keyStream : Nat → String) : CreateOutcome :=
  let key := keyStream 0
  match createShort ctxUserID now store ⟨reqURL, key, 0, 0, 0⟩ with
  | .error e => ⟨store, some e, 1⟩
  | .ok (st, _) => ⟨st, none, 1⟩

/-! ### Key generation (`generate/generate.go`) -/

/-- `SecureStringFromAlphabet` from `generate/generate.go`, with the
random source made explicit: each random byte `b` selects the symbol at
index `b % len(alphabet)`. -/
def SecureStringFromAlphabet (alphabet : List Char) (bytes : List Nat) : List Char :=
  bytes.map (fun b => alphabet.getD (b % alphabet.length) ' ')

/-- The byte-to-symbol index map used by `SecureStringFromAlphabet`. -/
def byteToIndex (L : Nat) (b : Nat) : Nat := b % L

/-- How many of the bytes `0 ≤ b < n` select symbol index `i` under the
modulo map of `SecureStringFromAlphabet`. -/
def countModEq (L i n : Nat) : Nat :=
  ((List.range n).filter (fun b => byteToIndex L b == i)).length

/-- Number of the 256 byte values that map to alphabet index `i`. -/
def preimageCount (L i : Nat) : Nat := countModEq L i 256

/-! ### Sessions and the OAuth handlers (`http/http.go`, `http/auth.go`) -/

/-- `http.Session`: the payload of the secure session cookie. -/
structure Session where
  userID : Int
  redirectURL : String
  state : String
deriving DecidableEq, Repr

/-- The zero `Session{}` value. -/
def emptySession : Session := ⟨0, "", ""⟩

/-- `(*Server).session` from `http/http.go`, with the cookie jar and the
secure-cookie decoder made explicit.  A missing cookie yields the empty
session and no error; a cookie that fails authenticated decoding yields
the empty session *and* an error (the Boolean flag). -/
def sessionRead (cookie : Option String) (decode : String → Option Session) :
    Session × Bool :=
  match cookie with
  | none => (emptySession, false)
  | some v =>
    match decode v with
    | some sess => (sess, false)
    | none => (emptySession, true)

/-- `(*Server).authenticate` middleware (cookie path): the decode error
of `session` is discarded (`session, _ := s.session(r)`); when the
session carries a nonzero user id that resolves to a user, that id
becomes the request's context user, otherwise the request proceeds with
user id 0. -/
def authenticate (cookie : Option String) (decode : String → Option Session)
    (findUserByID : Int → Option Int) : Int :=
  let sess := (sessionRead cookie decode).1
  if sess.userID ≠ 0 then
    match findUserByID sess.userID with
    | some uid => uid
    | none => 0
  else 0

/-- An OAuth2 token as returned by the provider exchange;
`expiry = none` models the zero `time.Time`. -/
structure OAuthToken where
  accessToken : String
  refreshToken : String
  expiry : Option Nat
deriving DecidableEq, Repr

/-- The GitHub profile fields read by the callback (all optional
pointers in the Go client). -/
structure GitHubUser where
  id : Option Int
  name : Option String
  login : Option String
  email : Option String
deriving DecidableEq, Repr

/-- The Google userinfo fields read by the callback. -/
structure GoogleUser where
  id : String
  name : String
  email : String
deriving DecidableEq, Repr

/-- `lil.AuthSourceGitHub` / `lil.AuthSourceGoogle`: the provider tags
(`auth.go` of the domain package is not among the sources; the spec's §3
names the tags "github" and "google"). -/
def AuthSourceGitHub : String := "github"

def AuthSourceGoogle : String := "google"

/-- The `lil.Auth` value a callback handler passes to
`AuthService.CreateAuth`: provider tag, provider subject id, tokens, and
the embedded user's name/email. -/
structure AuthRequest where
  source : String
  sourceID : String
  accessToken : String
  refreshToken : String
  expiry : Option Nat
  userName : String
  userEmail : String
deriving DecidableEq, Repr

/-- HTTP outcome of a callback handler. -/
inductive HttpOut where
  | errorResp (msg : String)
  | redirect (url : String)
deriving DecidableEq, Repr

/-- True for an error response. -/
def HttpOut.isError : HttpOut → Bool
  | .errorResp _ => true
  | .redirect _ => false

/-- The observable effects of one callback handler run: the argument
passed to `AuthService.CreateAuth` (`none` when it was never called),
the session written back into the cookie (`none` when `setSession` was
never reached), and the HTTP response. -/
structure CallbackEffects where
  createAuthArg : Option AuthRequest
  cookieWritten : Option Session
  out : HttpOut
deriving DecidableEq, Repr

/-- `handleOAuthGitHubCallback` from `http/auth.go`.  External
collaborators are passed as oracles: the secure-cookie decoder, the
OAuth2 code exchange, the GitHub profile fetch, and
`AuthService.CreateAuth` (returning the user id it assigned). -/
def handleOAuthGitHubCallback (formState formCode : String) (cookie : Option String)
    (decode : String → Option Session)
    (exchange : String → Except String OAuthToken)
    (fetchUser : OAuthToken → Except String GitHubUser)
    (createAuth : AuthRequest → Except AppError Int) : CallbackEffects :=
  match sessionRead cookie decode with
  | (_, true) => ⟨none, none, .errorResp "cannot read session"⟩
  | (sess, false) =>
    if formState ≠ sess.state then
      ⟨none, none, .errorResp "oauth state mismatch"⟩
    else
      match exchange formCode with
      | .error _ => ⟨none, none, .errorResp "oauth exchange error"⟩
      | .ok tok =>
        match fetchUser tok with
        | .error _ => ⟨none, none, .errorResp "cannot fetch github user"⟩
        | .ok u =>
          match u.id with
          | none =>
            ⟨none, none,
              .errorResp "user ID not returned by GitHub, cannot authenticate user"⟩
          | some ghID =>
            let name := match u.name with
              | some n => n
              | none => match u.login with
                | some l => l
                | none => ""
            let email := match u.email with
              | some e => e
              | none => ""
            let auth : AuthRequest :=
              ⟨AuthSourceGitHub, toString ghID, tok.accessToken, tok.refreshToken,
                tok.expiry, name, email⟩
            match createAuth auth with
            | .error _ => ⟨some auth, none, .errorResp "cannot create auth"⟩
            | .ok uid =>
              let redirectURL := if sess.redirectURL = "" then "/" else sess.redirectURL
              ⟨some auth, some ⟨uid, "", ""⟩, .redirect redirectURL⟩

/-- `handleOAuthGoogleCallback` from `http/auth.go`.  Same shape as the
GitHub callback; note that the `lil.Auth` it builds carries
`Source: lil.AuthSourceGitHub`. -/
def handleOAuthGoogleCallback (formState formCode : String) (cookie : Option String)
    (decode : String → Option Session)
    (exchange : String → Except String OAuthToken)
    (fetchUser : OAuthToken → Except String GoogleUser)
    (createAuth : AuthRequest → Except AppError Int) : CallbackEffects :=
  match sessionRead cookie decode with
  | (_, true) => ⟨none, none, .errorResp "cannot read session"⟩
  | (sess, false) =>
    if formState ≠ sess.state then
      ⟨none, none, .errorResp "oauth state mismatch"⟩
    else
      match exchange formCode with
      | .error _ => ⟨none, none, .errorResp "oauth exchange error"⟩
      | .ok tok =>
        match fetchUser tok with
        | .error _ => ⟨none, none, .errorResp "cannot fetch google user"⟩
        | .ok u =>
          if u.id = "" then
            ⟨none, none,
              .errorResp "user ID not returned by Google, cannot authenticate user."⟩
          else
            let auth : AuthRequest :=
              ⟨AuthSourceGitHub, u.id, tok.accessToken, tok.refreshToken,
                tok.expiry, u.name, u.email⟩
            match createAuth auth with
            | .error _ => ⟨some auth, none, .errorResp "cannot create auth"⟩
            | .ok uid =>
              let redirectURL := if sess.redirectURL = "" then "/" else sess.redirectURL
              ⟨some auth, some ⟨uid, "", ""⟩, .redirect redirectURL⟩

/-! ### Identity linking (`AuthService.CreateAuth`)

The sqlite implementation of `AuthService` is not among the sources —
only its interface, its callers in `http/auth.go`, and the `auths` table
constraints of `sqlite/migration/000000000.sql`
(`UNIQUE(user_id, source)`, `UNIQUE(source, source_id)`).  The operation
is therefore modelled from the spec's §4.1 algorithm. -/

/-- An `auths` table row. -/
structure AuthRow where
  id : Nat
  userID : Nat
  source : String
  sourceID : String
  accessToken : String
  refreshToken : String
  expiry : Option Nat
deriving DecidableEq, Repr

/-- A `users` table row (fields relevant to linking). -/
structure UserRow where
  id : Nat
  name : String
  email : String
deriving DecidableEq, Repr

/-- The relational store touched by identity linking: both tables in
insertion order plus the AUTOINCREMENT counters. -/
structure AuthStore where
  users : List UserRow
  auths : List AuthRow
  nextUserID : Nat
  nextAuthID : Nat
deriving DecidableEq, Repr

/-- The empty store after the initial migration. -/
def emptyAuthStore : AuthStore := ⟨[], [], 1, 1⟩

/-- The token/expiry in-place update applied to the matched identity. -/
def updateTokens (a : AuthRequest) (rid : Nat) (q : AuthRow) : AuthRow :=
  if q.id = rid then
    { q with accessToken := a.accessToken, refreshToken := a.refreshToken,
             expiry := a.expiry }
  else q

/-- The `(provider, subject)` lookup predicate of identity resolution. -/
def authMatches (a : AuthRequest) (q : AuthRow) : Bool :=
  q.source == a.source && q.sourceID == a.sourceID

/-- Whether some stored identity binds the given user to the given
provider (the `UNIQUE(user_id, source)` probe). -/
def userHasSource (auths : List AuthRow) (uid : Nat) (src : String) : Bool :=
  auths.any (fun q => q.userID == uid && q.source == src)

/-- Modelled from the spec: `AuthService.CreateAuth` (§4.1), whose sqlite
implementation is missing from the sources.  (1) reject an empty subject
with `EINVALID`; (2) if an identity with the assertion's
`(provider, subject)` exists, update its tokens/expiry in place and
return the owning user; (3) else, if the assertion carries a non-empty
email owned by an existing user, insert a new identity for that user
unless the user already holds one for this provider (`ECONFLICT`, the
`UNIQUE(user_id, source)` constraint); (4) else create a new user and
its identity together. -/
def CreateAuth (s : AuthStore) (a : AuthRequest) : Except AppError (AuthStore × Nat) :=
  if a.sourceID = "" then
    .error ⟨.EINVALID, "Source ID required."⟩
  else
    match s.auths.find? (authMatches a) with
    | some r =>
      .ok ({ s with auths := s.auths.map (updateTokens a r.id) }, r.userID)
    | none =>
      match (if a.userEmail = "" then none
             else s.users.find? (fun u => u.email == a.userEmail)) with
      | some u =>
        if userHasSource s.auths u.id a.source then
          .error ⟨.ECONFLICT, "User already has an auth for this source."⟩
        else
          .ok ({ s with
                  auths := s.auths ++
                    [⟨s.nextAuthID, u.id, a.source, a.sourceID, a.accessToken,
                      a.refreshToken, a.expiry⟩],
                  nextAuthID := s.nextAuthID + 1 }, u.id)
      | none =>
        .ok ({ users := s.users ++ [⟨s.nextUserID, a.userName, a.userEmail⟩],
               auths := s.auths ++
                 [⟨s.nextAuthID, s.nextUserID, a.source, a.sourceID, a.accessToken,
                   a.refreshToken, a.expiry⟩],
               nextUserID := s.nextUserID + 1,
               nextAuthID := s.nextAuthID + 1 }, s.nextUserID)

/-- The identity-defining part of an auth row: everything except the
mutable tokens/expiry. -/
def authIdent (q : AuthRow) : Nat × Nat × String × String :=
  (q.id, q.userID, q.source, q.sourceID)

/-- `DELETE FROM users WHERE id = ?` with the `ON DELETE CASCADE` on
`auths.user_id` (migration file): removes the user and its identities. -/
def deleteUserCascade (s : AuthStore) (uid : Nat) : AuthStore :=
  ⟨s.users.filter (fun u => !(u.id == uid)),
   s.auths.filter (fun q => !(q.userID == uid)),
   s.nextUserID, s.nextAuthID⟩

/-- The two uniqueness invariants of the `auths` table:
`UNIQUE(source, source_id)` and `UNIQUE(user_id, source)`. -/
def wfAuthStore (s : AuthStore) : Prop :=
  s.auths.Pairwise (fun q r => ¬(q.source = r.source ∧ q.sourceID = r.sourceID)) ∧
  s.auths.Pairwise (fun q r => ¬(q.userID = r.userID ∧ q.source = r.source))

/-- The auxiliary inductive invariant: uniqueness plus the AUTOINCREMENT
counters bounding every stored id. -/
def authStoreInv (s : AuthStore) : Prop :=
  wfAuthStore s ∧
  (∀ u ∈ s.users, u.id < s.nextUserID) ∧
  (∀ q ∈ s.auths, q.userID < s.nextUserID)

/-- Store states reachable from the empty store by the operations that
touch the `auths` table: successful `CreateAuth` calls and cascading
user deletion. -/
inductive ReachableAuthStore : AuthStore → Prop where
  | init : ReachableAuthStore emptyAuthStore
  | createAuth (s s' : AuthStore) (a : AuthRequest) (uid : Nat) :
      ReachableAuthStore s → CreateAuth s a = .ok (s', uid) → ReachableAuthStore s'
  | deleteUser (s : AuthStore) (uid : Nat) :
      ReachableAuthStore s → ReachableAuthStore (deleteUserCascade s uid)

/-! ## Theorems about the claims -/

/-- Claim C5: the claim says a delete by a non-owner returns
`UNAUTHORIZED` and leaves the short in place.  The code has no owner
check anywhere on the delete path — contradicting the handler's own
doc comment ("It deletes a short, if the user is the owner") and the
unused `lil.CanEditShort` helper.  Evaluated at the failing input: a
short with key `"K"` owned by user 1 is deleted by caller 2, with
success. -/
theorem handleShortURLDelete_ignores_owner :
    handleShortURLDelete 2 [⟨⟨"https", "example.com"⟩, "K", 1, 0, 0⟩] "K" =
      ([], none) := by decide

/-- Claim C6 counterexample: with user id 0 *and* an empty target URL,
`CreateShort` fails with `EUNAUTHORIZED`, not `EINVALID` — the
authorization check runs before URL validation, so "fails with INVALID
when the target URL is empty" is false at this input. -/
theorem CreateShort_unauthorized_precedes_invalid :
    (CreateShort 0 7 [] ⟨⟨"", ""⟩, "k", 0, 0, 0⟩).2 =
      some ⟨.EUNAUTHORIZED, "You must be logged in to create a short."⟩ ∧
    ErrorCode.EUNAUTHORIZED ≠ ErrorCode.EINVALID := by decide

/-- Claim C6 (amended): `CreateShort` fails with `EUNAUTHORIZED`
whenever the context user id is 0 (checked first); for an authenticated
caller it fails with an `EINVALID` error when the target URL is empty or
its scheme is neither http nor https; and in every failing case the
store is unchanged. -/
theorem CreateShort_validation (uid : Int) (now : Nat) (store : List Short) (short : Short) :
    (uid = 0 →
      CreateShort uid now store short =
        (store, some ⟨.EUNAUTHORIZED, "You must be logged in to create a short."⟩)) ∧
    (uid ≠ 0 →
      (short.url.render = "" ∨ (short.url.scheme ≠ "https" ∧ short.url.scheme ≠ "http")) →
      ∃ e, CreateShort uid now store short = (store, some e) ∧ e.code = .EINVALID) ∧
    (∀ e, (CreateShort uid now store short).2 = some e →
      (CreateShort uid now store short).1 = store) := by
  refine ⟨?_, ?_, ?_⟩
  · intro h
    simp [CreateShort, createShort, h]
  · intro huid hbad
    rcases hbad with hempty | hscheme
    · refine ⟨ErrEmptyURL, ?_, rfl⟩
      simp [CreateShort, createShort, huid, Short.Validate, hempty]
    · by_cases hempty : short.url.render = ""
      · refine ⟨ErrEmptyURL, ?_, rfl⟩
        simp [CreateShort, createShort, huid, Short.Validate, hempty]
      · refine ⟨ErrInvalidURLScheme, ?_, rfl⟩
        simp [CreateShort, createShort, huid, Short.Validate, hempty, hscheme]
  · intro e he
    unfold CreateShort at he ⊢
    cases hc : createShort uid now store short with
    | error e2 => rfl
    | ok p => rw [hc] at he; simp at he

/-- Claim C6 witness: the amended theorem applied at concrete inputs —
an anonymous caller is rejected with `EUNAUTHORIZED`, and an
authenticated caller shortening `ftp://x` gets an `EINVALID` error with
the store unchanged. -/
theorem CreateShort_validation_witness :
    CreateShort 0 7 [] ⟨⟨"https", "x"⟩, "k", 0, 0, 0⟩ =
      ([], some ⟨.EUNAUTHORIZED, "You must be logged in to create a short."⟩) ∧
    ∃ e, CreateShort 9 7 [] ⟨⟨"ftp", "x"⟩, "k", 0, 0, 0⟩ = ([], some e) ∧
      e.code = .EINVALID :=
  ⟨(CreateShort_validation 0 7 [] ⟨⟨"https", "x"⟩, "k", 0, 0, 0⟩).1 rfl,
   (CreateShort_validation 9 7 [] ⟨⟨"ftp", "x"⟩, "k", 0, 0, 0⟩).2.1 (by decide)
     (Or.inr (by decide))⟩

/-- Claim C7 counterexample: with the store already holding key
`"abcdef"` and the generator producing `"abcdef"` again, the create
handler returns `ECONFLICT` to the caller after consuming exactly one
generated key — it does *not* regenerate and retry before surfacing
CONFLICT. -/
theorem handleShortURLCreate_no_retry :
    handleShortURLCreate 1 0 [⟨⟨"https", "example.com"⟩, "abcdef", 1, 0, 0⟩]
        ⟨"https", "other.example.com"⟩ (fun _ => "abcdef") =
      ⟨[⟨⟨"https", "example.com"⟩, "abcdef", 1, 0, 0⟩],
        some ⟨.ECONFLICT, "Short with the same key already exists."⟩, 1⟩ := by decide

/-- Claim C7 (amended): when the freshly generated key collides with a
stored short's key, creation surfaces `ECONFLICT` to the caller
immediately: a single generated key is consumed, a single insertion is
attempted, and the store is left unchanged — there is no retry. -/
theorem handleShortURLCreate_conflict_immediate (uid : Int) (now : Nat)
    (store : List Short) (u : URL) (keyStream : Nat → String)
    (huid : uid ≠ 0)
    (hrender : u.render ≠ "")
    (hscheme : u.scheme = "https" ∨ u.scheme = "http")
    (hkey : keyStream 0 ≠ "")
    (hcol : store.any (fun s => s.key == keyStream 0) = true) :
    handleShortURLCreate uid now store u keyStream =
      ⟨store, some ⟨.ECONFLICT, "Short with the same key already exists."⟩, 1⟩ := by
  have hs : ¬(u.scheme ≠ "https" ∧ u.scheme ≠ "http") := by
    rcases hscheme with h | h <;> simp [h]
  simp [handleShortURLCreate, createShort, huid, Short.Validate, hrender, hs, hkey, hcol]

/-- Claim C7 witness: the amended theorem applied at a concrete
colliding store and generator. -/
theorem handleShortURLCreate_conflict_immediate_witness :
    (1 : Int) ≠ 0 ∧
    (URL.mk "https" "other.example.com").render ≠ "" ∧
    ("abcdef" : String) ≠ "" ∧
    [Short.mk ⟨"https", "example.com"⟩ "abcdef" 1 0 0].any
      (fun s => s.key == "abcdef") = true ∧
    handleShortURLCreate 1 0 [⟨⟨"https", "example.com"⟩, "abcdef", 1, 0, 0⟩]
        ⟨"https", "other.example.com"⟩ (fun _ => "abcdef") =
      ⟨[⟨⟨"https", "example.com"⟩, "abcdef", 1, 0, 0⟩],
        some ⟨.ECONFLICT, "Short with the same key already exists."⟩, 1⟩ :=
  ⟨by decide, by decide, by decide, by decide,
   handleShortURLCreate_conflict_immediate 1 0
     [⟨⟨"https", "example.com"⟩, "abcdef", 1, 0, 0⟩]
     ⟨"https", "other.example.com"⟩ (fun _ => "abcdef")
     (by decide) (by decide) (Or.inl rfl) (by decide) (by decide)⟩

/-- Claim C9 counterexample: with two stored matching shorts and
`offset = 2`, `findShorts` returns an empty page and count 0, although
2 shorts match the filter — the returned count is *not* independent of
`Offset`, because the window count is read from the scanned rows and an
empty page leaves it at its zero initialisation. -/
theorem findShorts_offset_zeroes_count :
    findShorts
        [⟨⟨"https", "1.example.com"⟩, "aaaaa", 1, 0, 0⟩,
         ⟨⟨"https", "2.example.com"⟩, "bbbbb", 1, 0, 0⟩]
        ⟨none, none, 2, 20⟩ = ([], 0) ∧
    (List.filter (fun s => matchesFilter ⟨none, none, 2, 20⟩ s)
        [⟨⟨"https", "1.example.com"⟩, "aaaaa", 1, 0, 0⟩,
         ⟨⟨"https", "2.example.com"⟩, "bbbbb", 1, 0, 0⟩]).length = 2 := by decide

/-- Claim C9 (amended): `findShorts` returns its result page as a
sublist of the stored shorts in insertion order (the matching rows, in
order, after offset/limit paging), and the returned count equals the
total number of matching shorts whenever the page is nonempty; when
limit/offset produce an empty page the count is 0 instead. -/
theorem findShorts_count_and_order (store : List Short) (f : ShortFilter) :
    List.Sublist (findShorts store f).1
      (store.filter (fun s => matchesFilter f s)) ∧
    List.Sublist (findShorts store f).1 store ∧
    ((findShorts store f).1 ≠ [] →
      (findShorts store f).2 = (store.filter (fun s => matchesFilter f s)).length) ∧
    ((findShorts store f).1 = [] → (findShorts store f).2 = 0) := by
  have hsub : List.Sublist (findShorts store f).1
      (store.filter (fun s => matchesFilter f s)) := by
    show List.Sublist (applyLimitOffset f.limit f.offset _) _
    unfold applyLimitOffset
    split
    · split
      · exact ((List.take_sublist _ _).trans (List.drop_sublist _ _))
      · exact List.drop_sublist _ _
    · split
      · exact List.take_sublist _ _
      · exact List.Sublist.refl _
  refine ⟨hsub, hsub.trans (List.filter_sublist _), ?_, ?_⟩
  · intro hne
    show (if (applyLimitOffset f.limit f.offset _).isEmpty then 0 else _) = _
    rw [if_neg]
    simpa [List.isEmpty_iff] using hne
  · intro hemp
    show (if (applyLimitOffset f.limit f.offset _).isEmpty then 0 else _) = 0
    rw [if_pos]
    simpa [List.isEmpty_iff] using hemp

/-- Claim C9 witness: the amended theorem applied at a concrete store
and an offset-1 filter whose page is nonempty. -/
theorem findShorts_count_and_order_witness :
    (findShorts
        [⟨⟨"https", "1.example.com"⟩, "aaaaa", 1, 0, 0⟩,
         ⟨⟨"https", "2.example.com"⟩, "bbbbb", 1, 0, 0⟩]
        ⟨none, none, 1, 20⟩).1 ≠ [] ∧
    (findShorts
        [⟨⟨"https", "1.example.com"⟩, "aaaaa", 1, 0, 0⟩,
         ⟨⟨"https", "2.example.com"⟩, "bbbbb", 1, 0, 0⟩]
        ⟨none, none, 1, 20⟩).2 =
      (List.filter (fun s => matchesFilter ⟨none, none, 1, 20⟩ s)
        [⟨⟨"https", "1.example.com"⟩, "aaaaa", 1, 0, 0⟩,
         ⟨⟨"https", "2.example.com"⟩, "bbbbb", 1, 0, 0⟩]).length :=
  ⟨by decide,
   (findShorts_count_and_order
      [⟨⟨"https", "1.example.com"⟩, "aaaaa", 1, 0, 0⟩,
       ⟨⟨"https", "2.example.com"⟩, "bbbbb", 1, 0, 0⟩]
      ⟨none, none, 1, 20⟩).2.2.1 (by decide)⟩

/-- Claim C10: every `lil.Auth` the Google callback hands to
`AuthService.CreateAuth` carries `Source = AuthSourceGitHub` — the
GitHub provider tag, not a Google-specific one — so identities obtained
via Google are stored under the GitHub provider namespace. -/
theorem googleCallback_auth_source_github
    (formState formCode : String) (cookie : Option String)
    (decode : String → Option Session)
    (exchange : String → Except String OAuthToken)
    (fetchUser : OAuthToken → Except String GoogleUser)
    (createAuth : AuthRequest → Except AppError Int)
    (a : AuthRequest)
    (h : (handleOAuthGoogleCallback formState formCode cookie decode exchange
            fetchUser createAuth).createAuthArg = some a) :
    a.source = AuthSourceGitHub ∧ a.source ≠ AuthSourceGoogle := by
  unfold handleOAuthGoogleCallback at h
  split at h
  · simp at h
  · split at h
    · simp at h
    · split at h
      · simp at h
      · split at h
        · simp at h
        · split at h
          · simp at h
          · simp only at h
            split at h <;>
              · injection h with h2
                subst h2
                refine ⟨rfl, ?_⟩
                show AuthSourceGitHub ≠ AuthSourceGoogle
                decide

/-- Claim C10 witness: a concrete Google callback run that reaches
`CreateAuth`; the auth record it passes carries the GitHub tag. -/
theorem googleCallback_auth_source_github_witness :
    (handleOAuthGoogleCallback "st" "code" (some "c")
        (fun _ => some ⟨0, "", "st"⟩)
        (fun _ => .ok ⟨"at", "rt", none⟩)
        (fun _ => .ok ⟨"gid", "Name", "mail@example.com"⟩)
        (fun _ => .ok 3)).createAuthArg =
      some ⟨AuthSourceGitHub, "gid", "at", "rt", none, "Name", "mail@example.com"⟩ ∧
    (⟨AuthSourceGitHub, "gid", "at", "rt", none, "Name",
        "mail@example.com"⟩ : AuthRequest).source = AuthSourceGitHub :=
  ⟨by decide,
   (googleCallback_auth_source_github "st" "code" (some "c")
      (fun _ => some ⟨0, "", "st"⟩)
      (fun _ => .ok ⟨"at", "rt", none⟩)
      (fun _ => .ok ⟨"gid", "Name", "mail@example.com"⟩)
      (fun _ => .ok 3) _ (by decide)).1⟩

/-- Claim C1: on a callback (GitHub or Google) whose `state` form value
differs from the state in the successfully decoded session cookie, both
handlers abort with the "oauth state mismatch" error before calling
`AuthService.CreateAuth` and before rewriting the session cookie: the
effects record no `CreateAuth` argument and no cookie write, so the
prior user id carried by the client token is unchanged. -/
theorem oauthCallback_state_mismatch_aborts
    (formState formCode : String) (cookie : Option String)
    (decode : String → Option Session)
    (exchange : String → Except String OAuthToken)
    (fetchGitHub : OAuthToken → Except String GitHubUser)
    (fetchGoogle : OAuthToken → Except String GoogleUser)
    (createAuth : AuthRequest → Except AppError Int)
    (sess : Session)
    (hsess : sessionRead cookie decode = (sess, false))
    (hne : formState ≠ sess.state) :
    handleOAuthGitHubCallback formState formCode cookie decode exchange
        fetchGitHub createAuth =
      ⟨none, none, .errorResp "oauth state mismatch"⟩ ∧
    handleOAuthGoogleCallback formState formCode cookie decode exchange
        fetchGoogle createAuth =
      ⟨none, none, .errorResp "oauth state mismatch"⟩ := by
  unfold handleOAuthGitHubCallback handleOAuthGoogleCallback
  rw [hsess]
  simp [hne]

/-- Claim C1 witness: a concrete callback whose form state differs from
the session's nonce; both handlers abort without calling `CreateAuth`
and without touching the cookie. -/
theorem oauthCallback_state_mismatch_aborts_witness :
    sessionRead (some "c") (fun _ => some ⟨5, "", "good"⟩) = (⟨5, "", "good"⟩, false) ∧
    ("evil" : String) ≠ (Session.mk 5 "" "good").state ∧
    handleOAuthGitHubCallback "evil" "code" (some "c")
        (fun _ => some ⟨5, "", "good"⟩)
        (fun _ => .error "down")
        (fun _ => .error "down")
        (fun _ => .error ⟨.EINTERNAL, "down"⟩) =
      ⟨none, none, .errorResp "oauth state mismatch"⟩ :=
  ⟨rfl, by decide,
   (oauthCallback_state_mismatch_aborts "evil" "code" (some "c")
      (fun _ => some ⟨5, "", "good"⟩)
      (fun _ => .error "down")
      (fun _ => .error "down")
      (fun _ => .error "down")
      (fun _ => .error ⟨.EINTERNAL, "down"⟩)
      ⟨5, "", "good"⟩ rfl (by decide)).1⟩

/-- Claim C2 counterexample: a request whose session cookie fails
authenticated decoding does *not* always proceed without a surfaced
error — the Google OAuth callback checks the error returned by
`session` and responds with "cannot read session" to the client. -/
theorem sessionDecodeFailure_error_surfaced :
    (sessionRead (some "tampered") (fun _ => none)).2 = true ∧
    handleOAuthGoogleCallback "st" "code" (some "tampered") (fun _ => none)
        (fun _ => .error "down")
        (fun _ => .error "down")
        (fun _ => .error ⟨.EINTERNAL, "down"⟩) =
      ⟨none, none, .errorResp "cannot read session"⟩ := by decide

/-- Claim C2 (amended): a session cookie that fails authenticated
decoding yields the empty session together with an error; the
`authenticate` middleware discards that error, so the request proceeds
with the anonymous context user id 0 — but handlers that inspect the
error (the OAuth handlers) surface it to the client instead. -/
theorem sessionDecodeFailure_downgrades_anonymous
    (cookieVal : String) (decode : String → Option Session)
    (findUserByID : Int → Option Int)
    (hd : decode cookieVal = none) :
    sessionRead (some cookieVal) decode = (emptySession, true) ∧
    emptySession.userID = 0 ∧
    authenticate (some cookieVal) decode findUserByID = 0 := by
  refine ⟨?_, rfl, ?_⟩
  · simp [sessionRead, hd]
  · simp [authenticate, sessionRead, hd, emptySession]

/-- Claim C2 witness: the amended theorem applied to a concrete cookie
that fails decoding. -/
theorem sessionDecodeFailure_downgrades_anonymous_witness :
    ((fun _ => none : String → Option Session) "tampered" = none) ∧
    sessionRead (some "tampered") (fun _ => none) = (emptySession, true) ∧
    authenticate (some "tampered") (fun _ => none) (fun _ => none) = 0 :=
  ⟨rfl,
   (sessionDecodeFailure_downgrades_anonymous "tampered" (fun _ => none)
      (fun _ => none) rfl).1,
   (sessionDecodeFailure_downgrades_anonymous "tampered" (fun _ => none)
      (fun _ => none) rfl).2.2⟩

/-- Claim C3 counterexample: under the modulo byte-to-symbol map of
`SecureStringFromAlphabet` with the default 62-symbol alphabet, symbol
index 0 has a different number of byte preimages than symbol index 61 —
the selection is not uniform. -/
theorem moduloBias_default_alphabet :
    preimageCount 62 0 ≠ preimageCount 62 61 := by decide

/-- Auxiliary: adding one more byte `n` to the range adds one preimage
exactly when `n % L = i`. -/
theorem countModEq_succ (L i n : Nat) :
    countModEq L i (n + 1) = countModEq L i n + (if n % L = i then 1 else 0) := by
  simp only [countModEq, byteToIndex, List.range_succ, List.filter_append,
    List.length_append]
  by_cases h : n % L = i
  · simp [h]
  · simp [h]

/-- Auxiliary: closed form for the number of bytes below `n` that the
modulo map sends to index `i`. -/
theorem countModEq_closed (L i : Nat) (hL : 0 < L) (hi : i < L) (n : Nat) :
    countModEq L i n = n / L + if i < n % L then 1 else 0 := by
  induction n with
  | zero => simp [countModEq]
  | succ n ih =>
    rw [countModEq_succ, ih]
    have hr : n % L < L := Nat.mod_lt _ hL
    rcases Nat.lt_or_ge (n % L + 1) L with hlt | hge
    · have h1 : (n + 1) % L = n % L + 1 := by
        conv_lhs => rw [← Nat.div_add_mod n L]
        rw [Nat.add_assoc, Nat.mul_add_mod]
        exact Nat.mod_eq_of_lt hlt
      have h2 : (n + 1) / L = n / L := by
        conv_lhs => rw [← Nat.div_add_mod n L]
        rw [Nat.add_assoc, Nat.mul_add_div hL, Nat.div_eq_of_lt hlt, Nat.add_zero]
      rw [h1, h2]
      split_ifs <;> omega
    · have heq : n % L + 1 = L := by omega
      have h1 : (n + 1) % L = 0 := by
        conv_lhs => rw [← Nat.div_add_mod n L]
        rw [Nat.add_assoc, heq, ← Nat.mul_succ]
        exact Nat.mul_mod_right L _
      have h2 : (n + 1) / L = n / L + 1 := by
        conv_lhs => rw [← Nat.div_add_mod n L]
        rw [Nat.add_assoc, heq, ← Nat.mul_succ]
        exact Nat.mul_div_cancel_left _ hL
      rw [h1, h2]
      split_ifs <;> omega

/-- Claim C3 (amended): under the modulo byte-to-symbol map, symbol
index `i` of an alphabet of length `L` receives `⌊256/L⌋ + 1` of the 256
byte preimages when `i < 256 % L` and `⌊256/L⌋` otherwise — so the
symbols are equally likely only when `L` divides 256; for the default
62-symbol alphabet indices 0–7 receive 5 preimages and indices 8–61
receive 4. -/
theorem preimageCount_formula (L i : Nat) (hL : 0 < L) (hi : i < L) :
    preimageCount L i = 256 / L + if i < 256 % L then 1 else 0 :=
  countModEq_closed L i hL hi 256

/-- Claim C3 witness: the formula applied to the default alphabet length
62 at indices 0 and 61. -/
theorem preimageCount_formula_witness :
    0 < 62 ∧ 0 < 62 ∧ (61 : Nat) < 62 ∧
    preimageCount 62 0 = 256 / 62 + (if (0 : Nat) < 256 % 62 then 1 else 0) ∧
    preimageCount 62 61 = 256 / 62 + (if (61 : Nat) < 256 % 62 then 1 else 0) :=
  ⟨by decide, by decide, by decide,
   preimageCount_formula 62 0 (by decide) (by decide),
   preimageCount_formula 62 61 (by decide) (by decide)⟩

/-! ### Helper lemmas for identity resolution -/

theorem updateTokens_ident (a : AuthRequest) (rid : Nat) (q : AuthRow) :
    authIdent (updateTokens a rid q) = authIdent q := by
  unfold updateTokens authIdent
  split <;> rfl

theorem updateTokens_userID (a : AuthRequest) (rid : Nat) (q : AuthRow) :
    (updateTokens a rid q).userID = q.userID := by
  unfold updateTokens
  split <;> rfl

theorem updateTokens_source (a : AuthRequest) (rid : Nat) (q : AuthRow) :
    (updateTokens a rid q).source = q.source := by
  unfold updateTokens
  split <;> rfl

theorem updateTokens_sourceID (a : AuthRequest) (rid : Nat) (q : AuthRow) :
    (updateTokens a rid q).sourceID = q.sourceID := by
  unfold updateTokens
  split <;> rfl

theorem authMatches_updateTokens (a b : AuthRequest) (rid : Nat) (q : AuthRow) :
    authMatches a (updateTokens b rid q) = authMatches a q := by
  unfold authMatches updateTokens
  split <;> rfl

/-- The in-place-update branch of `CreateAuth`, characterised. -/
theorem CreateAuth_found (s : AuthStore) (a : AuthRequest) (r : AuthRow)
    (ha : ¬(a.sourceID = ""))
    (hf : s.auths.find? (authMatches a) = some r) :
    CreateAuth s a =
      .ok ({ s with auths := s.auths.map (updateTokens a r.id) }, r.userID) := by
  unfold CreateAuth
  rw [if_neg ha, hf]

/-- After any successful `CreateAuth`, the store holds an identity with
the assertion's `(provider, subject)` whose owner is the returned user
id — and the subject was necessarily non-empty. -/
theorem CreateAuth_ok_find (s1 s2 : AuthStore) (a : AuthRequest) (uid : Nat)
    (h : CreateAuth s1 a = .ok (s2, uid)) :
    ¬(a.sourceID = "") ∧
    ∃ r, s2.auths.find? (authMatches a) = some r ∧ r.userID = uid := by
  unfold CreateAuth at h
  split at h
  · exact absurd h (by simp)
  next ha =>
    refine ⟨ha, ?_⟩
    split at h
    next r hf =>
      simp only [Except.ok.injEq, Prod.mk.injEq] at h
      obtain ⟨h1, h2⟩ := h
      subst h1
      subst h2
      refine ⟨updateTokens a r.id r, ?_, updateTokens_userID a r.id r⟩
      show (s1.auths.map (updateTokens a r.id)).find? (authMatches a) = _
      rw [List.find?_map]
      have hcomp : (authMatches a ∘ updateTokens a r.id) = authMatches a :=
        funext fun q => authMatches_updateTokens a a r.id q
      rw [hcomp, hf]
      rfl
    next hf =>
      split at h
      next u hu =>
        split at h
        · exact absurd h (by simp)
        next hconf =>
          simp only [Except.ok.injEq, Prod.mk.injEq] at h
          obtain ⟨h1, h2⟩ := h
          subst h1
          subst h2
          refine ⟨⟨s1.nextAuthID, u.id, a.source, a.sourceID, a.accessToken,
            a.refreshToken, a.expiry⟩, ?_, rfl⟩
          show (s1.auths ++ [_]).find? (authMatches a) = _
          rw [List.find?_append, hf]
          simp [authMatches]
      next =>
        simp only [Except.ok.injEq, Prod.mk.injEq] at h
        obtain ⟨h1, h2⟩ := h
        subst h1
        subst h2
        refine ⟨⟨s1.nextAuthID, s1.nextUserID, a.source, a.sourceID, a.accessToken,
          a.refreshToken, a.expiry⟩, ?_, rfl⟩
        show (s1.auths ++ [_]).find? (authMatches a) = _
        rw [List.find?_append, hf]
        simp [authMatches]

/-- Claim C4: resolving an assertion whose `(provider, subject)` already
succeeded once is idempotent with respect to account identity — a second
`CreateAuth` of the same assertion returns the same user id, leaves the
`users` table unchanged, creates no new identity (the identity-defining
fields of every `auths` row are unchanged, and the row count with them),
and touches only the matched identity's tokens/expiry in place. -/
theorem CreateAuth_idempotent (s1 : AuthStore) (a : AuthRequest) (s2 : AuthStore)
    (uid : Nat) (h : CreateAuth s1 a = .ok (s2, uid)) :
    ∃ s3, CreateAuth s2 a = .ok (s3, uid) ∧
      s3.users = s2.users ∧
      s3.auths.map authIdent = s2.auths.map authIdent ∧
      s3.auths.length = s2.auths.length ∧
      s3.nextUserID = s2.nextUserID ∧ s3.nextAuthID = s2.nextAuthID := by
  obtain ⟨ha, r, hf, hru⟩ := CreateAuth_ok_find s1 s2 a uid h
  refine ⟨{ s2 with auths := s2.auths.map (updateTokens a r.id) }, ?_, rfl, ?_,
    List.length_map _ _, rfl, rfl⟩
  · rw [CreateAuth_found s2 a r ha hf, hru]
  · show (s2.auths.map (updateTokens a r.id)).map authIdent = _
    rw [List.map_map]
    have hcomp : (authIdent ∘ updateTokens a r.id) = authIdent :=
      funext fun q => updateTokens_ident a r.id q
    rw [hcomp]

/-- Claim C4 witness: a first resolution of `(github, "123")` on the
empty store creates user 1; the theorem applied there yields a second
resolution returning user 1 again with no new user or identity. -/
theorem CreateAuth_idempotent_witness :
    CreateAuth emptyAuthStore ⟨"github", "123", "t", "r", none, "A", "a@x.com"⟩ =
      .ok (⟨[⟨1, "A", "a@x.com"⟩], [⟨1, 1, "github", "123", "t", "r", none⟩], 2, 2⟩, 1) ∧
    ∃ s3, CreateAuth
        ⟨[⟨1, "A", "a@x.com"⟩], [⟨1, 1, "github", "123", "t", "r", none⟩], 2, 2⟩
        ⟨"github", "123", "t", "r", none, "A", "a@x.com"⟩ = .ok (s3, 1) ∧
      s3.users = [⟨1, "A", "a@x.com"⟩] ∧
      s3.auths.map authIdent =
        [⟨1, 1, "github", "123", "t", "r", none⟩].map authIdent ∧
      s3.auths.length = 1 ∧
      s3.nextUserID = 2 ∧ s3.nextAuthID = 2 :=
  ⟨rfl,
   CreateAuth_idempotent emptyAuthStore ⟨"github", "123", "t", "r", none, "A", "a@x.com"⟩
     ⟨[⟨1, "A", "a@x.com"⟩], [⟨1, 1, "github", "123", "t", "r", none⟩], 2, 2⟩ 1
     rfl⟩

/-! ### Invariant preservation for the auths table -/

theorem authStoreInv_empty : authStoreInv emptyAuthStore := by
  refine ⟨⟨List.Pairwise.nil, List.Pairwise.nil⟩, ?_, ?_⟩ <;>
    · intro x hx
      simp [emptyAuthStore] at hx

theorem authStoreInv_createAuth (s s' : AuthStore) (a : AuthRequest) (uid : Nat)
    (hinv : authStoreInv s) (h : CreateAuth s a = .ok (s', uid)) :
    authStoreInv s' := by
  obtain ⟨⟨hw1, hw2⟩, hub, hab⟩ := hinv
  unfold CreateAuth at h
  split at h
  · exact absurd h (by simp)
  next ha =>
    split at h
    next r hf =>
      simp only [Except.ok.injEq, Prod.mk.injEq] at h
      obtain ⟨h1, h2⟩ := h
      subst h1
      refine ⟨⟨?_, ?_⟩, hub, ?_⟩
      · show (s.auths.map (updateTokens a r.id)).Pairwise _
        rw [List.pairwise_map]
        refine hw1.imp ?_
        intro q1 q2 h12
        simpa only [updateTokens_source, updateTokens_sourceID] using h12
      · show (s.auths.map (updateTokens a r.id)).Pairwise _
        rw [List.pairwise_map]
        refine hw2.imp ?_
        intro q1 q2 h12
        simpa only [updateTokens_userID, updateTokens_source] using h12
      · intro q hq
        obtain ⟨q0, hq0, rfl⟩ := List.mem_map.mp hq
        rw [updateTokens_userID]
        exact hab q0 hq0
    next hf =>
      have hnone : ∀ q ∈ s.auths, ¬(authMatches a q = true) :=
        List.find?_eq_none.mp hf
      have hnone' : ∀ q ∈ s.auths, ¬(q.source = a.source ∧ q.sourceID = a.sourceID) := by
        intro q hq hc
        exact hnone q hq (by simp [authMatches, hc.1, hc.2])
      split at h
      next u hu =>
        have hu' : s.users.find? (fun v => v.email == a.userEmail) = some u := by
          by_cases he : a.userEmail = ""
          · rw [if_pos he] at hu
            cases hu
          · rwa [if_neg he] at hu
        have humem : u ∈ s.users := List.mem_of_find?_eq_some hu'
        split at h
        · exact absurd h (by simp)
        next hconf =>
          have hconf' : ∀ q ∈ s.auths, ¬(q.userID = u.id ∧ q.source = a.source) := by
            intro q hq hc
            apply hconf
            unfold userHasSource
            rw [List.any_eq_true]
            exact ⟨q, hq, by simp [hc.1, hc.2]⟩
          simp only [Except.ok.injEq, Prod.mk.injEq] at h
          obtain ⟨h1, h2⟩ := h
          subst h1
          refine ⟨⟨?_, ?_⟩, hub, ?_⟩
          · show (s.auths ++ [_]).Pairwise _
            rw [List.pairwise_append]
            refine ⟨hw1, by simp, ?_⟩
            intro q hq row hrow
            simp only [List.mem_singleton] at hrow
            subst hrow
            intro hc
            exact hnone' q hq ⟨hc.1, hc.2⟩
          · show (s.auths ++ [_]).Pairwise _
            rw [List.pairwise_append]
            refine ⟨hw2, by simp, ?_⟩
            intro q hq row hrow
            simp only [List.mem_singleton] at hrow
            subst hrow
            intro hc
            exact hconf' q hq ⟨hc.1, hc.2⟩
          · intro q hq
            rcases List.mem_append.mp hq with hq0 | hq1
            · exact hab q hq0
            · simp only [List.mem_singleton] at hq1
              subst hq1
              exact hub u humem
      next =>
        simp only [Except.ok.injEq, Prod.mk.injEq] at h
        obtain ⟨h1, h2⟩ := h
        subst h1
        refine ⟨⟨?_, ?_⟩, ?_, ?_⟩
        · show (s.auths ++ [_]).Pairwise _
          rw [List.pairwise_append]
          refine ⟨hw1, by simp, ?_⟩
          intro q hq row hrow
          simp only [List.mem_singleton] at hrow
          subst hrow
          intro hc
          exact hnone' q hq ⟨hc.1, hc.2⟩
        · show (s.auths ++ [_]).Pairwise _
          rw [List.pairwise_append]
          refine ⟨hw2, by simp, ?_⟩
          intro q hq row hrow
          simp only [List.mem_singleton] at hrow
          subst hrow
          intro hc
          exact absurd hc.1 (Nat.ne_of_lt (hab q hq))
        · intro v hv
          rcases List.mem_append.mp hv with hv0 | hv1
          · exact Nat.lt_succ_of_lt (hub v hv0)
          · simp only [List.mem_singleton] at hv1
            subst hv1
            exact Nat.lt_succ_self _
        · intro q hq
          rcases List.mem_append.mp hq with hq0 | hq1
          · exact Nat.lt_succ_of_lt (hab q hq0)
          · simp only [List.mem_singleton] at hq1
            subst hq1
            exact Nat.lt_succ_self _

theorem authStoreInv_deleteUser (s : AuthStore) (uid : Nat)
    (hinv : authStoreInv s) : authStoreInv (deleteUserCascade s uid) := by
  obtain ⟨⟨hw1, hw2⟩, hub, hab⟩ := hinv
  refine ⟨⟨hw1.sublist (List.filter_sublist _), hw2.sublist (List.filter_sublist _)⟩,
    ?_, ?_⟩
  · intro v hv
    exact hub v (List.mem_of_mem_filter hv)
  · intro q hq
    exact hab q (List.mem_of_mem_filter hq)

/-- Every reachable store satisfies the full inductive invariant. -/
theorem reachableAuthStore_inv (s : AuthStore) (h : ReachableAuthStore s) :
    authStoreInv s := by
  induction h with
  | init => exact authStoreInv_empty
  | createAuth s s2 a uid hr heq ih => exact authStoreInv_createAuth s s2 a uid ih heq
  | deleteUser s uid hr ih => exact authStoreInv_deleteUser s uid ih

/-- Claim C8: in every reachable store state the `auths` table holds at
most one identity per `(provider, subject)` pair and at most one per
`(user, provider)` pair — every modelled operation (identity resolution
and cascading user deletion) preserves both uniqueness constraints. -/
theorem reachableAuthStore_unique (s : AuthStore) (h : ReachableAuthStore s) :
    wfAuthStore s :=
  (reachableAuthStore_inv s h).1

/-- Claim C8 witness: the theorem applied to the reachable state after
one identity resolution on the empty store. -/
theorem reachableAuthStore_unique_witness :
    ReachableAuthStore
      ⟨[⟨1, "A", "a@x.com"⟩], [⟨1, 1, "github", "123", "t", "r", none⟩], 2, 2⟩ ∧
    wfAuthStore
      ⟨[⟨1, "A", "a@x.com"⟩], [⟨1, 1, "github", "123", "t", "r", none⟩], 2, 2⟩ :=
  have hr : ReachableAuthStore
      ⟨[⟨1, "A", "a@x.com"⟩], [⟨1, 1, "github", "123", "t", "r", none⟩], 2, 2⟩ :=
    ReachableAuthStore.createAuth emptyAuthStore _
      ⟨"github", "123", "t", "r", none, "A", "a@x.com"⟩ 1
      ReachableAuthStore.init rfl
  ⟨hr, reachableAuthStore_unique _ hr⟩

end Lil
